import Mathlib

/-!
Shallow embedding of the big-ag-grid-lab data-access core.

Source layout:
* `api/src/index.js` — Express server: `/api/users` (offset pagination with a
  TTL count cache) and `/api/users-cursor` (keyset pagination).
* `web/src/App.tsx` — client: `fetchData` with an `AbortController` and a
  request-id staleness check (the request sequencer).

Modelling conventions:
* JS strings are Lean `String`s; the JS string operations used by the code
  (`trim`, `split(":")`, `toLowerCase`, `parseInt`, `LIKE '%q%'` containment,
  SQLite TEXT comparison) are re-implemented structurally on `List Char` so
  that every definition evaluates by kernel reduction.
* SQLite TEXT comparison of ISO-8601 `createdAt` strings is byte-lexicographic;
  it is modelled by the lexicographic `listLt` on the character lists.
  SQLite's ASCII-case-insensitive `LIKE` is modelled as case-sensitive
  substring containment; no claim depends on the collation (the spec leaves it
  an open question).
* `Date.now()` / wall-clock time is passed explicitly as a `Nat` argument.
* The database's `ORDER BY` is modelled by an (executable) insertion sort over
  the filtered table.
-/

/-! ## JS / SQLite string primitives -/

/-- Characters considered whitespace by `String.prototype.trim`. -/
def wsChar (c : Char) : Bool := c.isWhitespace

/-- Character-list version of JS `s.trim()`. -/
def trimChars (cs : List Char) : List Char :=
  ((cs.dropWhile wsChar).reverse.dropWhile wsChar).reverse

/-- JS `s.trim()`. -/
def jsTrim (s : String) : String := ⟨trimChars s.data⟩

/-- JS `s.split(sep)` for a one-character separator: always returns a
non-empty list of (possibly empty) segments. -/
def splitOnChar (sep : Char) : List Char → List (List Char)
  | [] => [[]]
  | c :: cs =>
    match splitOnChar sep cs with
    | [] => [[c]]
    | h :: t => if c = sep then [] :: h :: t else (c :: h) :: t

/-- JS `s.toLowerCase()` on character lists (ASCII case folding). -/
def lowerChars (cs : List Char) : List Char := cs.map Char.toLower

/-- Lexicographic (memcmp-style) strict order on character lists: the model of
SQLite TEXT `<` on `createdAt` strings. -/
def listLt : List Char → List Char → Bool
  | [], [] => false
  | [], _ :: _ => true
  | _ :: _, [] => false
  | a :: as, b :: bs => if a < b then true else if b < a then false else listLt as bs

/-- SQLite TEXT `<` on strings. -/
def strLt (a b : String) : Bool := listLt a.data b.data

/-- Does `hay` start with `needle`? -/
def startsWithChars : List Char → List Char → Bool
  | [], _ => true
  | _ :: _, [] => false
  | a :: as, b :: bs => a = b && startsWithChars as bs

/-- Does `hay` contain `needle` as a contiguous substring? -/
def hasSubChars (needle : List Char) : List Char → Bool
  | [] => needle.isEmpty
  | c :: cs => startsWithChars needle (c :: cs) || hasSubChars needle cs

/-- SQL `s LIKE '%pat%'` (substring containment; see header note on collation). -/
def likeContains (pat s : String) : Bool := hasSubChars pat.data s.data

/-- Numeric value of a decimal digit character. -/
def digitsToNat (ds : List Char) : Nat :=
  ds.foldl (fun acc c => acc * 10 + (c.toNat - 48)) 0

/-- JS `parseInt(s, 10)`: skip whitespace, optional sign, then the longest
leading digit run; `none` models the `NaN` result (no leading digit). -/
def jsParseInt (s : String) : Option Int :=
  let cs := trimChars s.data
  let signed : Int × List Char :=
    match cs with
    | '-' :: t => (-1, t)
    | '+' :: t => (1, t)
    | t => (1, t)
  let digs := signed.2.takeWhile Char.isDigit
  if digs.isEmpty then none else some (signed.1 * (digitsToNat digs : Int))

/-- JS truthiness conversion `x ? x.toString() : null` for an optional string
query parameter: an absent parameter and an empty string both give `null`. -/
def jsStrOrNull : Option String → Option String
  | some s => if s = "" then none else some s
  | none => none

/-! ## Data model -/

/-- The `status` column of the `users` table (`api/src/seed.js`). -/
inductive Status where
  | ACTIVE
  | INACTIVE
deriving DecidableEq

/-- The string stored in the `status` column. -/
def statusStr : Status → String
  | .ACTIVE => "ACTIVE"
  | .INACTIVE => "INACTIVE"

/-- One row of the `users` table: `id` is the integer primary key and
`createdAt` an ISO-8601 TEXT timestamp. -/
structure UserRow where
  id : Nat
  name : String
  email : String
  status : Status
  createdAt : String
deriving DecidableEq

/-! ## The database's ORDER BY: an executable sort -/

/-- Insert `a` into `l` before the first element `b` with `le a b`. -/
def insertBy {α : Type} (le : α → α → Bool) (a : α) : List α → List α
  | [] => [a]
  | b :: l => if le a b then a :: b :: l else b :: insertBy le a l

/-- Insertion sort by a boolean comparison: the model of the engine's
`ORDER BY` (a stable total sort of the filtered rows). -/
def sortBy {α : Type} (le : α → α → Bool) : List α → List α
  | [] => []
  | a :: l => insertBy le a (sortBy le l)

/-! ## Count cache (`api/src/index.js`, `getCountCache` / `setCountCache`)

The JS `Map` is modelled as an association list with at most one entry per
key (`Map.set` replaces); `Date.now()` is the explicit `now` argument. -/

/-- `COUNT_CACHE_TTL_MS = 30_000`. -/
def COUNT_CACHE_TTL_MS : Nat := 30000

/-- Cache state: a list of `(key, value, expiresAt)` entries. -/
abbrev CountCache := List (String × Nat × Nat)

/-- `countCache.get(key)`: the `(value, expiresAt)` stored under `key`. -/
def cacheFind (cache : CountCache) (key : String) : Option (Nat × Nat) :=
  (cache.find? (fun e => decide (e.1 = key))).map (fun e => e.2)

/-- `countCache.delete(key)`. -/
def cacheDelete (cache : CountCache) (key : String) : CountCache :=
  cache.filter (fun e => decide (e.1 ≠ key))

/-- `getCountCache(key)`: a miss returns `null`; a hit past its `expiresAt`
deletes the entry and returns `null` (lazy eviction); otherwise the value.
Returns the possibly-updated cache alongside the result. -/
def getCountCache (cache : CountCache) (key : String) (now : Nat) :
    Option Nat × CountCache :=
  match cacheFind cache key with
  | none => (none, cache)
  | some (v, expiresAt) =>
    if expiresAt < now then (none, cacheDelete cache key)
    else (some v, cache)

/-- `setCountCache(key, value)`: store with `expiresAt = Date.now() + TTL`,
replacing any previous entry for the key. -/
def setCountCache (cache : CountCache) (key : String) (value : Nat) (now : Nat) :
    CountCache :=
  (key, value, now + COUNT_CACHE_TTL_MS) :: cacheDelete cache key

/-! ## Sort parsing (`parseSort`) -/

/-- The sort-field allowlist guarding the `ORDER BY` clause. -/
def sortAllowed : List String := ["id", "name", "email", "status", "createdAt"]

/-- Resolved sort direction. -/
inductive SortDir where
  | ASC
  | DESC
deriving DecidableEq

/-- Resolved sort specification: an allowlisted column and a direction. -/
structure SortSpec where
  field : String
  dir : SortDir
deriving DecidableEq

/-- `parseSort(sortStr)`: split on `":"`; an empty field falls back to
`"createdAt"`, an absent or empty direction to `"desc"`; the direction is
`ASC` iff it lower-cases to `"asc"`; a field outside the allowlist is
replaced by `"createdAt"`. Total — no input is rejected. -/
def parseSort (sortStr : String) : SortSpec :=
  let parts := splitOnChar ':' sortStr.data
  let fieldRaw := parts.headD []
  let dirRaw := parts[1]?
  let field : String := if fieldRaw.isEmpty then "createdAt" else ⟨fieldRaw⟩
  let dirStr : List Char :=
    match dirRaw with
    | some d => if d.isEmpty then "desc".data else d
    | none => "desc".data
  let dir := if lowerChars dirStr = "asc".data then SortDir.ASC else SortDir.DESC
  { field := if field ∈ sortAllowed then field else "createdAt", dir := dir }

/-- The raw field segment of a sort input (before any defaulting). -/
def sortFieldPart (s : String) : String := ⟨(splitOnChar ':' s.data).headD []⟩

/-- The raw direction segment of a sort input, when present. -/
def sortDirPart (s : String) : Option String :=
  ((splitOnChar ':' s.data)[1]?).map (fun l => (⟨l⟩ : String))

/-! ## The `/api/users` offset endpoint -/

/-- A validated `/api/users` query (post-zod: `page ≥ 1`, `pageSize ≥ 1`,
`search` defaulted to `""`, `sort` defaulted to `"createdAt:desc"`). -/
structure UsersQuery where
  page : Nat
  pageSize : Nat
  search : String
  status : Option Status
  sort : String
deriving DecidableEq

/-- The `search && search.trim().length > 0` guard. -/
def hasSearch (q : UsersQuery) : Bool :=
  decide (q.search ≠ "") && decide ((trimChars q.search.data).length > 0)

/-- SQL fragment pushed for a status filter. -/
def statusClauseSql : String := "status = @status"

/-- SQL fragment pushed for a search filter. -/
def searchClauseSql : String := "(name LIKE @q OR email LIKE @q)"

/-- The `where` array of SQL fragments built by the `/api/users` handler. -/
def usersWhereClauses (q : UsersQuery) : List String :=
  (if q.status.isSome then [statusClauseSql] else []) ++
  (if hasSearch q then [searchClauseSql] else [])

/-- `list.join(" AND ")`-style interleaving. -/
def joinSep (sep : String) : List String → String
  | [] => ""
  | [s] => s
  | s :: rest => s ++ sep ++ joinSep sep rest

/-- `whereSql`: `"WHERE c1 AND c2"` or the empty string. -/
def whereSqlOf (cs : List String) : String :=
  if cs.isEmpty then "" else "WHERE " ++ joinSep " AND " cs

/-- The named bind parameters attached to the prepared statements: the only
channel through which the user-supplied `status` and `search` values reach
the database. -/
structure BoundParams where
  status : Option String
  q : Option String
deriving DecidableEq

/-- The `params` object of the `/api/users` handler. -/
def usersParams (qr : UsersQuery) : BoundParams :=
  { status := qr.status.map statusStr
    q := if hasSearch qr then some ("%" ++ jsTrim qr.search ++ "%") else none }

/-- Rendering of the resolved direction into SQL. -/
def sortDirSql : SortDir → String
  | .ASC => "ASC"
  | .DESC => "DESC"

/-- SQL text of the rows statement (template-literal whitespace collapsed). -/
def usersRowsSql (q : UsersQuery) : String :=
  let s := parseSort q.sort
  "SELECT id, name, email, status, createdAt FROM users " ++
    whereSqlOf (usersWhereClauses q) ++
    " ORDER BY " ++ s.field ++ " " ++ sortDirSql s.dir ++
    " LIMIT @limit OFFSET @offset"

/-- SQL text of the count statement. -/
def usersCountSql (q : UsersQuery) : String :=
  "SELECT COUNT(*) as totalCount FROM users " ++ whereSqlOf (usersWhereClauses q)

/-- Row semantics of the `status = @status` fragment. -/
def statusPred (st : Status) (r : UserRow) : Bool := decide (r.status = st)

/-- Row semantics of the `(name LIKE @q OR email LIKE @q)` fragment, with
`@q = '%' + term + '%'`. -/
def searchPred (term : String) (r : UserRow) : Bool :=
  likeContains term r.name || likeContains term r.email

/-- Row predicate of the assembled WHERE clause of `/api/users`. -/
def usersRowPred (q : UsersQuery) (r : UserRow) : Bool :=
  (match q.status with
   | some st => statusPred st r
   | none => true) &&
  (if hasSearch q then searchPred (jsTrim q.search) r else true)

/-- Comparison on one allowlisted column, ascending (`createdAt` is also the
fall-through for the default field). -/
def fieldLeAsc (f : String) (a b : UserRow) : Bool :=
  if f = "id" then decide (a.id ≤ b.id)
  else if f = "name" then !(strLt b.name a.name)
  else if f = "email" then !(strLt b.email a.email)
  else if f = "status" then !(strLt (statusStr b.status) (statusStr a.status))
  else !(strLt b.createdAt a.createdAt)

/-- `ORDER BY field dir` comparison. -/
def orderLe (f : String) (d : SortDir) (a b : UserRow) : Bool :=
  match d with
  | .ASC => fieldLeAsc f a b
  | .DESC => fieldLeAsc f b a

/-- The filtered, sorted result set of `/api/users` before LIMIT/OFFSET. -/
def usersSorted (table : List UserRow) (q : UsersQuery) : List UserRow :=
  sortBy (orderLe (parseSort q.sort).field (parseSort q.sort).dir)
    (table.filter (usersRowPred q))

/-- The page of rows returned by `/api/users`:
`LIMIT pageSize OFFSET (page-1)*pageSize`. -/
def usersRows (table : List UserRow) (q : UsersQuery) : List UserRow :=
  ((usersSorted table q).drop ((q.page - 1) * q.pageSize)).take q.pageSize

/-! ## The count-cache key (`JSON.stringify({ whereSql, normalized })`) -/

/-- The normalized filter condition: `status ?? null` and the trimmed search
collapsed to `null` when empty. -/
structure NormalizedFilter where
  status : Option String
  search : Option String
deriving DecidableEq

/-- The `normalized` object computed by the `/api/users` handler. -/
def normalizedOf (q : UsersQuery) : NormalizedFilter :=
  { status := q.status.map statusStr
    search := if hasSearch q then some (jsTrim q.search) else none }

/-- JSON string escaping for the characters that can occur here; quotes and
backslashes are escaped (control-character escaping is omitted — any
injective per-character escape gives the same key-identity behaviour). -/
def escChars : List Char → List Char
  | [] => []
  | c :: cs => if c = '"' || c = '\\' then '\\' :: c :: escChars cs else c :: escChars cs

/-- A JSON string literal: quoted, escaped. -/
def jsonQuote (s : String) : String := "\"" ++ (⟨escChars s.data⟩ : String) ++ "\""

/-- A JSON string-or-null value. -/
def jsonStringOrNull : Option String → String
  | some s => jsonQuote s
  | none => "null"

/-- The fixed JSON punctuation around the `whereSql` member. -/
def keyLitA : String := "\x7b\"whereSql\":"

/-- The fixed JSON punctuation around the `status` member. -/
def keyLitB : String := ",\"normalized\":\x7b\"status\":"

/-- The fixed JSON punctuation around the `search` member. -/
def keyLitC : String := ",\"search\":"

/-- The fixed JSON punctuation closing the key. -/
def keyLitD : String := "\x7d\x7d"

/-- `JSON.stringify({ whereSql, normalized })` — the count-cache key. -/
def countCacheKey (q : UsersQuery) : String :=
  keyLitA ++ jsonQuote (whereSqlOf (usersWhereClauses q)) ++
    keyLitB ++ jsonStringOrNull (normalizedOf q).status ++
    keyLitC ++ jsonStringOrNull (normalizedOf q).search ++ keyLitD

/-! Decoding apparatus used to prove the key injective in the normalized
filter. `decodeBody` undoes `escChars` up to an unescaped closing quote. -/

/-- Decode an escaped JSON string body up to its closing quote, returning the
decoded content and the remainder of the input; the flag records that the
previous character was an unconsumed backslash. -/
def decodeBodyAux : Bool → List Char → Option (List Char × List Char)
  | _, [] => none
  | true, d :: ds => (decodeBodyAux false ds).map (fun p => (d :: p.1, p.2))
  | false, c :: cs =>
    if c = '"' then some ([], cs)
    else if c = '\\' then decodeBodyAux true cs
    else (decodeBodyAux false cs).map (fun p => (c :: p.1, p.2))

/-- Decode an escaped JSON string body from its start. -/
def decodeBody (l : List Char) : Option (List Char × List Char) :=
  decodeBodyAux false l

/-- Expect a literal prefix, returning the remainder. -/
def stripLit : List Char → List Char → Option (List Char)
  | [], r => some r
  | _ :: _, [] => none
  | p :: ps, c :: cs => if p = c then stripLit ps cs else none

/-- Decode a quoted JSON string, returning content and remainder. -/
def decodeQuoted : List Char → Option (List Char × List Char)
  | '"' :: rest => decodeBody rest
  | _ => none

/-- Decode a JSON string-or-null value, returning content and remainder. -/
def decodeNullable : List Char → Option (Option (List Char) × List Char)
  | '"' :: rest => (decodeBody rest).map (fun p => (some p.1, p.2))
  | 'n' :: 'u' :: 'l' :: 'l' :: rest => some (none, rest)
  | _ => none

/-- Decode a count-cache key into its `(whereSql, status, search)` parts. -/
def decodeKey (l : List Char) : Option (List Char × Option (List Char) × Option (List Char)) :=
  match stripLit keyLitA.data l with
  | none => none
  | some l1 =>
    match decodeQuoted l1 with
    | none => none
    | some (w, l2) =>
      match stripLit keyLitB.data l2 with
      | none => none
      | some l3 =>
        match decodeNullable l3 with
        | none => none
        | some (sn, l4) =>
          match stripLit keyLitC.data l4 with
          | none => none
          | some l5 =>
            match decodeNullable l5 with
            | none => none
            | some (se, _) => some (w, sn, se)

/-! ## The `/api/users-cursor` keyset endpoint -/

/-- A raw `/api/users-cursor` request. `pageSize` is carried post-clamping (the
`parseInt`/`min`/`max` chain does not interact with any claim); the other
fields are the raw optional query-string parameters. -/
structure CursorQuery where
  pageSize : Nat
  search : String
  status : Option String
  cursorCreatedAt : Option String
  cursorId : Option String
deriving DecidableEq

/-- `req.query.status ? req.query.status.toString() : null`. -/
def cursorStatusVal (q : CursorQuery) : Option String := jsStrOrNull q.status

/-- `req.query.cursorCreatedAt ? ....toString() : null`. -/
def cursorCreatedAtVal (q : CursorQuery) : Option String :=
  jsStrOrNull q.cursorCreatedAt

/-- `req.query.cursorId ? parseInt(....toString(), 10) : null`, with the
`Number.isInteger` guard folded in: `none` covers `null` and `NaN`. -/
def cursorIdVal (q : CursorQuery) : Option Int :=
  match jsStrOrNull q.cursorId with
  | some s => jsParseInt s
  | none => none

/-- The status actually filtered on: only `"ACTIVE"` or `"INACTIVE"` pass the
`status === "ACTIVE" || status === "INACTIVE"` guard. -/
def cursorStatusActive (q : CursorQuery) : Option String :=
  match cursorStatusVal q with
  | some s => if s = "ACTIVE" || s = "INACTIVE" then some s else none
  | none => none

/-- `ORDER BY createdAt DESC, id DESC` as a comparison: `a` may precede `b`
iff `b`'s composite key `(createdAt, id)` is at most `a`'s, lexicographically. -/
def keysetLe (a b : UserRow) : Bool :=
  strLt b.createdAt a.createdAt ||
    (decide (b.createdAt = a.createdAt) && decide (b.id ≤ a.id))

/-- The cursor WHERE fragment:
`createdAt < @cursorCreatedAt OR (createdAt = @cursorCreatedAt AND id < @cursorId)`. -/
def cursorBound (c : String) (i : Int) (r : UserRow) : Bool :=
  strLt r.createdAt c || (decide (r.createdAt = c) && decide ((r.id : Int) < i))

/-- The status/search part of the keyset WHERE clause. -/
def cursorBasePred (q : CursorQuery) (r : UserRow) : Bool :=
  (match cursorStatusActive q with
   | some s => decide (statusStr r.status = s)
   | none => true) &&
  (if (trimChars q.search.data).length > 0 then searchPred (jsTrim q.search) r else true)

/-- The full keyset WHERE clause: the cursor fragment is added only when
`cursorCreatedAt` is truthy and `cursorId` is an integer. -/
def cursorRowPred (q : CursorQuery) (r : UserRow) : Bool :=
  cursorBasePred q r &&
    (match cursorCreatedAtVal q, cursorIdVal q with
     | some c, some i => cursorBound c i r
     | _, _ => true)

/-- The `/api/users-cursor` JSON response (rows, `nextCursor`, and the
`usedCursor` meta field). -/
structure CursorResponse where
  rows : List UserRow
  nextCursor : Option (String × Nat)
  usedCursor : Option (String × Option Int)
deriving DecidableEq

/-- The `/api/users-cursor` handler: filter, `ORDER BY createdAt DESC, id
DESC`, `LIMIT pageSize`; `nextCursor` from the last returned row;
`usedCursor` keyed on the truthiness of `cursorCreatedAt` alone. -/
def cursorHandler (table : List UserRow) (q : CursorQuery) : CursorResponse :=
  let rows := (sortBy keysetLe (table.filter (cursorRowPred q))).take q.pageSize
  { rows := rows
    nextCursor := rows.getLast?.map (fun r => (r.createdAt, r.id))
    usedCursor :=
      match cursorCreatedAtVal q with
      | some c => some (c, cursorIdVal q)
      | none => none }

/-- The rows matching both the base filter and a complete cursor bound. -/
def keysetMatching (table : List UserRow) (q : CursorQuery) (c : String) (i : Int) :
    List UserRow :=
  table.filter (fun r => cursorBasePred q r && cursorBound c i r)

/-! ## The client request sequencer (`web/src/App.tsx`, `fetchData`) -/

/-- A successful `/api/users` response as seen by the client; the `request`
and `meta` echo objects are opaque to the sequencer and modelled as strings. -/
structure ApiRes where
  rows : List UserRow
  totalCount : Nat
  request : String
  meta : String
deriving DecidableEq

/-- Client state: `reqId` is `reqIdRef.current` (the highest ticket issued);
the other four fields are the UI-facing React state the response writes. -/
structure SeqState where
  reqId : Nat
  rows : List UserRow
  totalCount : Nat
  apiResRequest : Option String
  meta : Option String
deriving DecidableEq

/-- Initial client state (the `useState` initializers). -/
def seqInit : SeqState :=
  { reqId := 0, rows := [], totalCount := 0, apiResRequest := none, meta := none }

/-- Events of one `fetchData` lifecycle: `dispatch` is the call itself
(aborting the previous controller and taking ticket `++reqIdRef.current`);
`response t res` is a fetch for ticket `t` settling successfully and reaching
the staleness check; `aborted t` is a fetch rejecting with `AbortError`
(early `return`, no state access). -/
inductive FetchEvent where
  | dispatch
  | response (ticket : Nat) (res : ApiRes)
  | aborted (ticket : Nat)
deriving DecidableEq

/-- The state written when a response passes the staleness check: `setRows`,
`setTotalCount`, `setApiResRequest`, `setMeta`. -/
def appliedState (s : SeqState) (res : ApiRes) : SeqState :=
  { s with
    rows := res.rows
    totalCount := res.totalCount
    apiResRequest := some res.request
    meta := some res.meta }

/-- One step of the sequencer. A response is applied only when its ticket
equals `reqIdRef.current` (`if (myReqId !== reqIdRef.current) return`). -/
def seqStep (s : SeqState) : FetchEvent → SeqState
  | .dispatch => { s with reqId := s.reqId + 1 }
  | .response t res => if t = s.reqId then appliedState s res else s
  | .aborted _ => s

/-- Run a sequence of fetch events from a state. -/
def seqRun (s : SeqState) (evs : List FetchEvent) : SeqState := evs.foldl seqStep s

/-- The number of tickets issued by a trace. -/
def countDispatches (evs : List FetchEvent) : Nat :=
  evs.countP (fun e => match e with | .dispatch => true | _ => false)

/-- What the caller of `fetchData` can observe of a settled fetch: the
returned promise either resolves (optionally after a `console.error` log) or
rejects. The `catch` clause makes rejection unreachable. -/
inductive CallerVisible where
  | completes (loggedToConsole : Bool)
  | raises (errName : String)
deriving DecidableEq

/-- A fetch for ticket `t` settling with either a response or an exception
named `errName`. On success the sequencer step runs; on `AbortError` the
`catch` returns silently; on any other exception it logs via `console.error`
and still resolves — the ticket number is never consulted in the `catch`. -/
def fetchSettle (s : SeqState) (t : Nat) (r : Except String ApiRes) :
    SeqState × CallerVisible :=
  match r with
  | .ok res => (seqStep s (.response t res), .completes false)
  | .error errName =>
    if errName = "AbortError" then (s, .completes false)
    else (s, .completes true)

/-! ## Statement abbreviations and concrete instances used by the theorems -/

/-- The count-cache key as a function of the normalized filter alone. -/
def keyOfNorm (n : NormalizedFilter) : String :=
  keyLitA ++
    jsonQuote (whereSqlOf
      ((if n.status.isSome then [statusClauseSql] else []) ++
        (if n.search.isSome then [searchClauseSql] else []))) ++
    keyLitB ++ jsonStringOrNull n.status ++
    keyLitC ++ jsonStringOrNull n.search ++ keyLitD

/-- Conclusion of the keyset complete-cursor claim: the returned page is the
first `pageSize` rows, in `(createdAt DESC, id DESC)` order, of the rows
matching the filter and the strict lexicographic cursor bound, and
`nextCursor` is the composite key of the last returned row (`null` iff the
page is empty). -/
def keysetPageSpec (table : List UserRow) (q : CursorQuery) (c : String) (i : Int) : Prop :=
  (cursorHandler table q).rows = (sortBy keysetLe (keysetMatching table q c i)).take q.pageSize ∧
  List.Perm (sortBy keysetLe (keysetMatching table q c i)) (keysetMatching table q c i) ∧
  (sortBy keysetLe (keysetMatching table q c i)).Pairwise (fun a b => keysetLe a b = true) ∧
  (∀ r ∈ (cursorHandler table q).rows,
      cursorBasePred q r = true ∧
      (strLt r.createdAt c = true ∨ (r.createdAt = c ∧ (r.id : Int) < i))) ∧
  (cursorHandler table q).nextCursor =
    ((cursorHandler table q).rows.getLast?).map (fun r => (r.createdAt, r.id)) ∧
  ((cursorHandler table q).nextCursor = none ↔ (cursorHandler table q).rows = [])

/-- Conclusion of the offset adjacent-pages claim: pages `P` and `P+1` are the
two halves of one contiguous window of the sorted result set, and share no
row. -/
def offsetPartitionSpec (table : List UserRow) (q : UsersQuery) : Prop :=
  usersRows table q ++ usersRows table { q with page := q.page + 1 } =
      ((usersSorted table q).drop ((q.page - 1) * q.pageSize)).take (2 * q.pageSize) ∧
  List.Disjoint (usersRows table q) (usersRows table { q with page := q.page + 1 })

/-- A small concrete users table (distinct ids, one tied `createdAt` pair). -/
def tblDemo : List UserRow :=
  [⟨1, "User 1", "user1@example.com", .INACTIVE, "2026-01-03T00:00:00Z"⟩,
   ⟨2, "User 2", "user2@example.com", .ACTIVE, "2026-01-02T00:00:00Z"⟩,
   ⟨3, "User 3", "user3@example.com", .INACTIVE, "2026-01-02T00:00:00Z"⟩,
   ⟨4, "User 4", "user4@example.com", .ACTIVE, "2026-01-01T00:00:00Z"⟩]

/-- A keyset request carrying a complete cursor. -/
def qCursorFull : CursorQuery :=
  { pageSize := 2, search := "", status := none,
    cursorCreatedAt := some "2026-01-03T00:00:00Z", cursorId := some "9" }

/-- A keyset request carrying only `cursorCreatedAt` (no `cursorId`). -/
def qCursorOne : CursorQuery :=
  { pageSize := 2, search := "", status := none,
    cursorCreatedAt := some "2026-01-02T00:00:00Z", cursorId := none }

/-- A keyset request whose `cursorCreatedAt` is supplied but empty, and whose
`cursorId` does not parse to an integer. -/
def qCursorEmptyStr : CursorQuery :=
  { pageSize := 1, search := "", status := none,
    cursorCreatedAt := some "", cursorId := none }

/-- A keyset request with a truthy `cursorCreatedAt` and a non-numeric
`cursorId`. -/
def qCursorNaN : CursorQuery :=
  { pageSize := 2, search := "", status := none,
    cursorCreatedAt := some "2026-01-02T00:00:00Z", cursorId := some "abc" }

/-- An offset request (page 1 of 2 rows, ascending by id). -/
def qOffsetDemo : UsersQuery :=
  { page := 1, pageSize := 2, search := "", status := none, sort := "id:asc" }

/-- Two offset requests equal in filter shape and resolved sort but different
in the user-supplied values and pagination. -/
def qShapeA : UsersQuery :=
  { page := 1, pageSize := 50, search := "alice", status := some .ACTIVE, sort := "name:asc" }

/-- See `qShapeA`. -/
def qShapeB : UsersQuery :=
  { page := 9, pageSize := 100, search := " bob ", status := some .INACTIVE, sort := "name:AsC" }

/-- Two offset requests with the same normalized filter but different
pagination and sort. -/
def qKeyA : UsersQuery :=
  { page := 1, pageSize := 50, search := " User 5 ", status := some .ACTIVE, sort := "id:asc" }

/-- See `qKeyA`. -/
def qKeyB : UsersQuery :=
  { page := 40, pageSize := 10, search := "User 5", status := some .ACTIVE, sort := "email:desc" }

/-- A sequencer state in which three tickets have been issued. -/
def seqStateThree : SeqState := { seqInit with reqId := 3 }

/-- A concrete response payload. -/
def resDemo : ApiRes := { rows := tblDemo, totalCount := 4, request := "req", meta := "meta" }

/-! ## General lemmas -/

theorem insertBy_perm {α : Type} (le : α → α → Bool) (a : α) (l : List α) :
    List.Perm (insertBy le a l) (a :: l) := by
  induction l with
  | nil => simp [insertBy]
  | cons b t ih =>
    simp only [insertBy]
    by_cases h : le a b = true
    · rw [if_pos h]
    · rw [if_neg h]
      exact (ih.cons b).trans (List.Perm.swap a b t)

theorem sortBy_perm {α : Type} (le : α → α → Bool) (l : List α) :
    List.Perm (sortBy le l) l := by
  induction l with
  | nil => simp [sortBy]
  | cons a t ih => exact (insertBy_perm le a (sortBy le t)).trans (ih.cons a)

theorem mem_insertBy {α : Type} (le : α → α → Bool) (a x : α) (l : List α) :
    x ∈ insertBy le a l ↔ x = a ∨ x ∈ l := by
  rw [(insertBy_perm le a l).mem_iff]
  simp

theorem insertBy_pairwise {α : Type} {le : α → α → Bool}
    (htot : ∀ a b, le a b = true ∨ le b a = true)
    (htrans : ∀ a b c, le a b = true → le b c = true → le a c = true)
    (a : α) (l : List α) (h : l.Pairwise (fun x y => le x y = true)) :
    (insertBy le a l).Pairwise (fun x y => le x y = true) := by
  induction l with
  | nil => simp [insertBy]
  | cons b t ih =>
    rcases List.pairwise_cons.mp h with ⟨hbt, htt⟩
    simp only [insertBy]
    by_cases hab : le a b = true
    · rw [if_pos hab]
      refine List.pairwise_cons.mpr ⟨?_, h⟩
      intro x hx
      rcases List.mem_cons.mp hx with hxb | hxt
      · exact hxb ▸ hab
      · exact htrans a b x hab (hbt x hxt)
    · rw [if_neg hab]
      have hba : le b a = true := (htot a b).resolve_left hab
      refine List.pairwise_cons.mpr ⟨?_, ih htt⟩
      intro x hx
      rcases (mem_insertBy le a x t).mp hx with hxa | hxt
      · exact hxa ▸ hba
      · exact hbt x hxt

theorem sortBy_pairwise {α : Type} {le : α → α → Bool}
    (htot : ∀ a b, le a b = true ∨ le b a = true)
    (htrans : ∀ a b c, le a b = true → le b c = true → le a c = true)
    (l : List α) : (sortBy le l).Pairwise (fun x y => le x y = true) := by
  induction l with
  | nil => simp [sortBy]
  | cons a t ih => exact insertBy_pairwise htot htrans a (sortBy le t) ih

/-! ## Order facts about the TEXT comparison -/

theorem listLt_trans :
    ∀ x y z : List Char, listLt x y = true → listLt y z = true → listLt x z = true := by
  intro x
  induction x with
  | nil =>
    intro y z h1 h2
    cases y with
    | nil => cases h1
    | cons b bs =>
      cases z with
      | nil => cases h2
      | cons c cs => simp [listLt]
  | cons a as ih =>
    intro y z h1 h2
    cases y with
    | nil => cases h1
    | cons b bs =>
      cases z with
      | nil => cases h2
      | cons c cs =>
        simp only [listLt] at h1 h2 ⊢
        rcases lt_trichotomy a b with hab | hab | hab
        · rcases lt_trichotomy b c with hbc | hbc | hbc
          · simp [lt_trans hab hbc]
          · subst hbc; simp [hab]
          · rw [if_pos hab] at h1
            rw [if_neg (lt_asymm hbc), if_pos hbc] at h2
            cases h2
        · subst hab
          rw [if_neg (lt_irrefl a), if_neg (lt_irrefl a)] at h1
          rcases lt_trichotomy a c with hac | hac | hac
          · simp [hac]
          · subst hac
            rw [if_neg (lt_irrefl a), if_neg (lt_irrefl a)] at h2 ⊢
            exact ih bs cs h1 h2
          · rw [if_neg (lt_asymm hac), if_pos hac] at h2
            cases h2
        · rw [if_neg (lt_asymm hab), if_pos hab] at h1
          cases h1

theorem listLt_connex :
    ∀ x y : List Char, listLt x y = false → listLt y x = false → x = y := by
  intro x
  induction x with
  | nil =>
    intro y h1 _
    cases y with
    | nil => rfl
    | cons b bs => simp [listLt] at h1
  | cons a as ih =>
    intro y h1 h2
    cases y with
    | nil => simp [listLt] at h2
    | cons b bs =>
      simp only [listLt] at h1 h2
      rcases lt_trichotomy a b with hab | hab | hab
      · rw [if_pos hab] at h1; cases h1
      · subst hab
        rw [if_neg (lt_irrefl a), if_neg (lt_irrefl a)] at h1 h2
        rw [ih bs h1 h2]
      · rw [if_pos hab] at h2; cases h2

theorem strLt_trans {a b c : String} (h1 : strLt a b = true) (h2 : strLt b c = true) :
    strLt a c = true :=
  listLt_trans a.data b.data c.data h1 h2

theorem strLt_connex {a b : String} (h1 : strLt a b = false) (h2 : strLt b a = false) :
    a = b :=
  String.ext (listLt_connex a.data b.data h1 h2)


theorem cacheFind_delete (cache : CountCache) (key : String) :
    cacheFind (cacheDelete cache key) key = none := by
  induction cache with
  | nil => rfl
  | cons e t ih =>
    by_cases h : e.1 = key
    · simp only [cacheDelete, cacheFind] at ih ⊢
      simp [h, ih]
    · simp only [cacheDelete, cacheFind] at ih ⊢
      simp [h, ih]


/-! ## Lemmas about the cache key -/

theorem stripLit_append : ∀ p r : List Char, stripLit p (p ++ r) = some r := by
  intro p
  induction p with
  | nil => intro r; rfl
  | cons c cs ih => intro r; simp [stripLit, ih]

theorem decodeBody_esc : ∀ (s r : List Char),
    decodeBodyAux false (escChars s ++ '"' :: r) = some (s, r) := by
  intro s
  induction s with
  | nil => intro r; rfl
  | cons c cs ih =>
    intro r
    by_cases h : c = '"' ∨ c = '\\'
    · have hc : (c = '"' || c = '\\') = true := by
        rcases h with h | h <;> simp [h]
      simp [escChars, hc, decodeBodyAux, ih]
    · push_neg at h
      have hc : (c = '"' || c = '\\') = false := by
        simp [h.1, h.2]
      simp [escChars, hc, decodeBodyAux, h.1, h.2, ih]

theorem data_jsonQuote (s : String) :
    (jsonQuote s).data = '"' :: (escChars s.data ++ ['"']) := by
  simp [jsonQuote, String.data_append]

theorem decodeQuoted_jsonQuote (s : String) (r : List Char) :
    decodeQuoted ((jsonQuote s).data ++ r) = some (s.data, r) := by
  rw [data_jsonQuote]
  simp only [List.cons_append, List.append_assoc, List.singleton_append]
  simp only [decodeQuoted, decodeBody]
  exact decodeBody_esc s.data r

theorem decodeNullable_val (o : Option String) (r : List Char) :
    decodeNullable ((jsonStringOrNull o).data ++ r) = some (o.map String.data, r) := by
  cases o with
  | none =>
    show decodeNullable (("null" : String).data ++ r) = some (none, r)
    rfl
  | some s =>
    show decodeNullable ((jsonQuote s).data ++ r) = some (some s.data, r)
    rw [data_jsonQuote]
    simp only [List.cons_append, List.append_assoc, List.singleton_append]
    simp only [decodeNullable, decodeBody]
    simp [decodeBody_esc s.data r]

theorem decodeKey_countCacheKey (q : UsersQuery) :
    decodeKey (countCacheKey q).data =
      some ((whereSqlOf (usersWhereClauses q)).data,
        (normalizedOf q).status.map String.data,
        (normalizedOf q).search.map String.data) := by
  simp only [countCacheKey, String.data_append, List.append_assoc]
  simp only [decodeKey, stripLit_append, decodeQuoted_jsonQuote, decodeNullable_val]

theorem stringData_injective : Function.Injective String.data := by
  intro a b h
  exact String.ext h

theorem hasSearch_norm (q : UsersQuery) : hasSearch q = (normalizedOf q).search.isSome := by
  cases hb : hasSearch q
  · simp [normalizedOf, hb]
  · simp [normalizedOf, hb]

theorem statusIsSome_norm (q : UsersQuery) :
    q.status.isSome = (normalizedOf q).status.isSome := by
  cases h : q.status <;> simp [normalizedOf, h]

theorem whereClauses_norm (q : UsersQuery) :
    usersWhereClauses q =
      (if (normalizedOf q).status.isSome then [statusClauseSql] else []) ++
        (if (normalizedOf q).search.isSome then [searchClauseSql] else []) := by
  rw [usersWhereClauses, hasSearch_norm, statusIsSome_norm]

theorem countCacheKey_norm (q : UsersQuery) :
    countCacheKey q = keyOfNorm (normalizedOf q) := by
  rw [countCacheKey, keyOfNorm, whereClauses_norm]

theorem countCacheKey_inj {q1 q2 : UsersQuery}
    (h : countCacheKey q1 = countCacheKey q2) : normalizedOf q1 = normalizedOf q2 := by
  have hd : decodeKey (countCacheKey q1).data = decodeKey (countCacheKey q2).data := by
    rw [h]
  rw [decodeKey_countCacheKey, decodeKey_countCacheKey] at hd
  have hp := Option.some.inj hd
  have hsn : (normalizedOf q1).status = (normalizedOf q2).status :=
    Option.map_injective stringData_injective (congrArg (fun p => p.2.1) hp)
  have hse : (normalizedOf q1).search = (normalizedOf q2).search :=
    Option.map_injective stringData_injective (congrArg (fun p => p.2.2) hp)
  cases hn1 : normalizedOf q1
  cases hn2 : normalizedOf q2
  rw [hn1, hn2] at hsn hse
  simp only at hsn hse
  rw [hsn, hse]

/-! ## Lemmas about the keyset comparison -/

theorem keysetLe_iff (a b : UserRow) :
    keysetLe a b = true ↔
      strLt b.createdAt a.createdAt = true ∨
        (b.createdAt = a.createdAt ∧ b.id ≤ a.id) := by
  simp [keysetLe, Bool.or_eq_true, Bool.and_eq_true, decide_eq_true_eq]

theorem keysetLe_total : ∀ a b : UserRow, keysetLe a b = true ∨ keysetLe b a = true := by
  intro a b
  cases h1 : strLt b.createdAt a.createdAt
  · cases h2 : strLt a.createdAt b.createdAt
    · have he : a.createdAt = b.createdAt := strLt_connex h2 h1
      rcases Nat.le_total b.id a.id with hid | hid
      · exact Or.inl ((keysetLe_iff a b).mpr (Or.inr ⟨he.symm, hid⟩))
      · exact Or.inr ((keysetLe_iff b a).mpr (Or.inr ⟨he, hid⟩))
    · exact Or.inr ((keysetLe_iff b a).mpr (Or.inl h2))
  · exact Or.inl ((keysetLe_iff a b).mpr (Or.inl h1))

theorem keysetLe_trans :
    ∀ a b c : UserRow, keysetLe a b = true → keysetLe b c = true → keysetLe a c = true := by
  intro a b c h1 h2
  rcases (keysetLe_iff a b).mp h1 with hba | ⟨hbe, hbi⟩
  · rcases (keysetLe_iff b c).mp h2 with hcb | ⟨hce, _⟩
    · exact (keysetLe_iff a c).mpr (Or.inl (strLt_trans hcb hba))
    · exact (keysetLe_iff a c).mpr (Or.inl (hce ▸ hba))
  · rcases (keysetLe_iff b c).mp h2 with hcb | ⟨hce, hci⟩
    · exact (keysetLe_iff a c).mpr (Or.inl (hbe ▸ hcb))
    · exact (keysetLe_iff a c).mpr (Or.inr ⟨hce.trans hbe, hci.trans hbi⟩)

/-! ## Lemmas about the keyset handler -/

theorem cursorRowPred_nobound (q : CursorQuery)
    (h : cursorCreatedAtVal q = none ∨ cursorIdVal q = none) (r : UserRow) :
    cursorRowPred q r = cursorBasePred q r := by
  rcases h with h | h
  · simp [cursorRowPred, h]
  · cases hc : cursorCreatedAtVal q <;> simp [cursorRowPred, hc, h]

theorem cursorBasePred_clear (q : CursorQuery) (r : UserRow) :
    cursorBasePred { q with cursorCreatedAt := none, cursorId := none } r =
      cursorBasePred q r := rfl

theorem cursorRows_nobound (table : List UserRow) (q : CursorQuery)
    (h : cursorCreatedAtVal q = none ∨ cursorIdVal q = none) :
    (cursorHandler table q).rows =
      (cursorHandler table { q with cursorCreatedAt := none, cursorId := none }).rows := by
  have hpred : ∀ r ∈ table, cursorRowPred q r =
      cursorRowPred { q with cursorCreatedAt := none, cursorId := none } r := by
    intro r _
    rw [cursorRowPred_nobound q h r]
    rw [cursorRowPred_nobound { q with cursorCreatedAt := none, cursorId := none }
        (Or.inl rfl) r]
    exact (cursorBasePred_clear q r).symm
  simp only [cursorHandler]
  rw [List.filter_congr hpred]

/-! ## Lemmas about the sequencer -/

theorem seqStep_reqId (s : SeqState) (e : FetchEvent) :
    (seqStep s e).reqId = s.reqId + (countDispatches [e]) := by
  cases e with
  | dispatch => simp [seqStep, countDispatches]
  | response t res =>
    by_cases h : t = s.reqId <;> simp [seqStep, h, appliedState, countDispatches]
  | aborted t => simp [seqStep, countDispatches]

theorem seqRun_reqId : ∀ (evs : List FetchEvent) (s : SeqState),
    (seqRun s evs).reqId = s.reqId + countDispatches evs := by
  intro evs
  induction evs with
  | nil => intro s; simp [seqRun, countDispatches]
  | cons e t ih =>
    intro s
    have h1 : seqRun s (e :: t) = seqRun (seqStep s e) t := rfl
    rw [h1, ih, seqStep_reqId]
    simp [countDispatches, List.countP_cons]
    omega

/-! ## Claim theorems -/

/-- C5: `set(key, v)` followed by `get(key)` strictly before the 30-second TTL
has elapsed returns `v`; a `get` finding its entry past `expiresAt` returns
absent and deletes the entry (lazy eviction), after which no later `get` can
return the expired value. -/
theorem countCache_ttl_behaviour :
    (∀ (cache : CountCache) (key : String) (v w t : Nat),
        t < w + COUNT_CACHE_TTL_MS →
          (getCountCache (setCountCache cache key v w) key t).1 = some v) ∧
    (∀ (c : CountCache) (key : String) (now val exp : Nat),
        cacheFind c key = some (val, exp) → exp < now →
          getCountCache c key now = (none, cacheDelete c key) ∧
          (∀ t2 : Nat, (getCountCache (cacheDelete c key) key t2).1 = none)) := by
  constructor
  · intro cache key v w t ht
    have hfind : cacheFind (setCountCache cache key v w) key =
        some (v, w + COUNT_CACHE_TTL_MS) := by
      simp [setCountCache, cacheFind]
    have hlt : ¬ (w + COUNT_CACHE_TTL_MS < t) := by omega
    simp [getCountCache, hfind, hlt]
  · intro c key now val exp hf hex
    constructor
    · simp [getCountCache, hf, hex]
    · intro t2
      simp [getCountCache, cacheFind_delete]

/-- Witness for the count-cache claim at concrete inputs. -/
theorem countCache_ttl_behaviour_witness :
    ((5 : Nat) < 0 + COUNT_CACHE_TTL_MS ∧
      (getCountCache (setCountCache [] "k" 42 0) "k" 5).1 = some 42) ∧
    (cacheFind [("k", 7, 3)] "k" = some (7, 3) ∧ (3 : Nat) < 10 ∧
      getCountCache [("k", 7, 3)] "k" 10 = (none, cacheDelete [("k", 7, 3)] "k")) :=
  ⟨⟨by decide, countCache_ttl_behaviour.1 [] "k" 42 0 5 (by decide)⟩,
    ⟨by decide, by decide,
      (countCache_ttl_behaviour.2 [("k", 7, 3)] "k" 10 7 3 (by decide) (by decide)).1⟩⟩

/-- Unfolding of the field computation of `parseSort`. -/
theorem parseSort_field_eq (s : String) :
    (parseSort s).field =
      if (if ((splitOnChar ':' s.data).headD []).isEmpty then ("createdAt" : String)
          else ⟨(splitOnChar ':' s.data).headD []⟩) ∈ sortAllowed
      then (if ((splitOnChar ':' s.data).headD []).isEmpty then ("createdAt" : String)
          else ⟨(splitOnChar ':' s.data).headD []⟩)
      else "createdAt" := rfl

/-- Unfolding of the direction computation of `parseSort`. -/
theorem parseSort_dir_eq (s : String) :
    (parseSort s).dir =
      if lowerChars
          (match (splitOnChar ':' s.data)[1]? with
            | some d => if d.isEmpty then "desc".data else d
            | none => "desc".data) = "asc".data
      then SortDir.ASC else SortDir.DESC := rfl

/-- C7: a sort input whose field segment is outside the allowlist resolves to
the `createdAt` field; the direction is `ASC` exactly when the direction
segment lower-cases to `"asc"` (`DESC` otherwise, including when absent); and
the resolved field is always allowlisted — no input errors. -/
theorem parseSort_defaults_total : ∀ s : String,
    (sortFieldPart s ∉ sortAllowed → (parseSort s).field = "createdAt") ∧
    ((parseSort s).dir = SortDir.ASC ↔
      lowerChars ((sortDirPart s).getD "").data = "asc".data) ∧
    (parseSort s).field ∈ sortAllowed := by
  intro s
  refine ⟨?_, ?_, ?_⟩
  · intro hno
    rw [parseSort_field_eq]
    by_cases he : ((splitOnChar ':' s.data).headD []).isEmpty = true
    · simp only [if_pos he]
      rw [if_pos (show ("createdAt" : String) ∈ sortAllowed by decide)]
    · have hf : (⟨(splitOnChar ':' s.data).headD []⟩ : String) ∉ sortAllowed := hno
      simp only [if_neg he]
      rw [if_neg hf]
  · rw [parseSort_dir_eq]
    cases hd : (splitOnChar ':' s.data)[1]? with
    | none =>
      have hdp : sortDirPart s = none := by rw [sortDirPart, hd]; rfl
      rw [hdp]
      decide
    | some d =>
      have hdp : sortDirPart s = some (⟨d⟩ : String) := by rw [sortDirPart, hd]; rfl
      rw [hdp]
      by_cases hde : d.isEmpty = true
      · have hdnil : d = [] := by simpa using hde
        rw [hdnil]
        decide
      · show (if lowerChars (if d.isEmpty then _ else d) = _ then _ else _) = _ ↔ _
        rw [if_neg hde]
        by_cases hasc : lowerChars d = "asc".data
        · rw [if_pos hasc]
          exact ⟨fun _ => hasc, fun _ => rfl⟩
        · rw [if_neg hasc]
          exact ⟨fun h => SortDir.noConfusion h, fun h => absurd h hasc⟩
  · rw [parseSort_field_eq]
    by_cases he : ((splitOnChar ':' s.data).headD []).isEmpty = true
    · simp only [if_pos he]
      rw [if_pos (show ("createdAt" : String) ∈ sortAllowed by decide)]
      decide
    · simp only [if_neg he]
      by_cases hmem : (⟨(splitOnChar ':' s.data).headD []⟩ : String) ∈ sortAllowed
      · rw [if_pos hmem]
        exact hmem
      · rw [if_neg hmem]
        decide

/-- Witness for the sort-parsing claim: an unknown field with a
mixed-case `asc` direction. -/
theorem parseSort_defaults_total_witness :
    (sortFieldPart "rank:AsC" ∉ sortAllowed ∧ (parseSort "rank:AsC").field = "createdAt") ∧
    ((parseSort "rank:AsC").dir = SortDir.ASC ↔
      lowerChars ((sortDirPart "rank:AsC").getD "").data = "asc".data) :=
  ⟨⟨by decide, (parseSort_defaults_total "rank:AsC").1 (by decide)⟩,
    (parseSort_defaults_total "rank:AsC").2.1⟩

/-- C8: with the dataset, filter, sort and page size fixed, the pages `P` and
`P+1` of the offset executor are the two halves of one contiguous window of
the sorted result set starting at offset `(P-1)*pageSize` — no overlap, no
gap. -/
theorem offset_adjacent_pages (table : List UserRow) (q : UsersQuery)
    (hp : 1 ≤ q.page) (hnd : table.Nodup) : offsetPartitionSpec table q := by
  have hsorted : usersSorted table { q with page := q.page + 1 } = usersSorted table q := rfl
  have hmul : q.page * q.pageSize = (q.page - 1) * q.pageSize + q.pageSize := by
    cases hq : q.page with
    | zero => omega
    | succ k => simp [Nat.succ_sub_one, Nat.succ_mul]
  have hwin2 : usersRows table { q with page := q.page + 1 } =
      (((usersSorted table q).drop ((q.page - 1) * q.pageSize)).drop q.pageSize).take
        q.pageSize := by
    rw [usersRows, hsorted]
    have hpg : ({ q with page := q.page + 1 } : UsersQuery).page - 1 = q.page := rfl
    have hps : ({ q with page := q.page + 1 } : UsersQuery).pageSize = q.pageSize := rfl
    rw [hpg, hps, List.drop_drop]
    rw [show (q.page - 1) * q.pageSize + q.pageSize = q.page * q.pageSize from hmul.symm]
  have happ : usersRows table q ++ usersRows table { q with page := q.page + 1 } =
      ((usersSorted table q).drop ((q.page - 1) * q.pageSize)).take (2 * q.pageSize) := by
    rw [hwin2, usersRows, Nat.two_mul, List.take_add]
  refine ⟨happ, ?_⟩
  have hnodup : ((usersSorted table q).drop ((q.page - 1) * q.pageSize)).take
      (2 * q.pageSize) |>.Nodup := by
    have h1 : usersSorted table q |>.Nodup :=
      ((sortBy_perm _ _).nodup_iff).mpr (hnd.filter _)
    exact ((((usersSorted table q).drop _).take_sublist _).trans
      ((usersSorted table q).drop_sublist _)).nodup h1
  rw [← happ] at hnodup
  exact (List.nodup_append.mp hnodup).2.2

/-- Witness for the offset partition claim at page 1 of a concrete table. -/
theorem offset_adjacent_pages_witness :
    1 ≤ qOffsetDemo.page ∧ tblDemo.Nodup ∧ offsetPartitionSpec tblDemo qOffsetDemo :=
  ⟨by decide, by decide, offset_adjacent_pages tblDemo qOffsetDemo (by decide) (by decide)⟩

/-- C9: the SQL text of both prepared statements is a function of the presence
of a status filter, the non-emptiness of the trimmed search, and the resolved
sort pair alone; the user-supplied values appear only in the bind-parameter
object. -/
theorem sql_depends_on_shape_only :
    (∀ q1 q2 : UsersQuery,
        q1.status.isSome = q2.status.isSome → hasSearch q1 = hasSearch q2 →
        parseSort q1.sort = parseSort q2.sort →
          usersRowsSql q1 = usersRowsSql q2 ∧ usersCountSql q1 = usersCountSql q2) ∧
    (∀ q : UsersQuery,
        usersParams q =
          { status := q.status.map statusStr
            q := if hasSearch q then some ("%" ++ jsTrim q.search ++ "%") else none }) := by
  constructor
  · intro q1 q2 h1 h2 h3
    have hc : usersWhereClauses q1 = usersWhereClauses q2 := by
      simp only [usersWhereClauses, h1, h2]
    constructor
    · simp only [usersRowsSql, hc, h3]
    · simp only [usersCountSql, hc]
  · intro q
    rfl

/-- Witness for the SQL-shape claim: same shape, different user values and
pagination give identical SQL. -/
theorem sql_depends_on_shape_only_witness :
    (qShapeA.status.isSome = qShapeB.status.isSome ∧ hasSearch qShapeA = hasSearch qShapeB ∧
      parseSort qShapeA.sort = parseSort qShapeB.sort) ∧
    usersRowsSql qShapeA = usersRowsSql qShapeB ∧
    usersCountSql qShapeA = usersCountSql qShapeB :=
  ⟨⟨by decide, by decide, by decide⟩,
    sql_depends_on_shape_only.1 qShapeA qShapeB (by decide) (by decide) (by decide)⟩

/-- C6: two offset requests share a count-cache key exactly when their
normalized filters agree; the page, page size and sort never enter the key. -/
theorem countCacheKey_norm_identity :
    (∀ q1 q2 : UsersQuery,
        countCacheKey q1 = countCacheKey q2 ↔ normalizedOf q1 = normalizedOf q2) ∧
    (∀ (q : UsersQuery) (p ps : Nat) (so : String),
        countCacheKey { q with page := p, pageSize := ps, sort := so } = countCacheKey q) := by
  constructor
  · intro q1 q2
    constructor
    · exact countCacheKey_inj
    · intro h
      rw [countCacheKey_norm, countCacheKey_norm, h]
  · intro q p ps so
    rfl

/-- Witness for the cache-key claim: same filter modulo trimming, different
pagination and sort, identical key. -/
theorem countCacheKey_norm_identity_witness :
    countCacheKey qKeyA = countCacheKey qKeyB ∧ normalizedOf qKeyA = normalizedOf qKeyB :=
  ⟨(countCacheKey_norm_identity.1 qKeyA qKeyB).mpr (by decide), by decide⟩

/-- C3: with a complete cursor `(c, i)`, the keyset page is the first
`pageSize` rows, in `(createdAt DESC, id DESC)` order, of the rows matching
the filter and the strict lexicographic bound
`createdAt < c OR (createdAt = c AND id < i)`, and `nextCursor` is the key of
the last returned row, `null` iff the page is empty. -/
theorem keyset_complete_cursor (table : List UserRow) (q : CursorQuery) (c : String) (i : Int)
    (hc : cursorCreatedAtVal q = some c) (hi : cursorIdVal q = some i) :
    keysetPageSpec table q c i := by
  have hpred : ∀ r ∈ table,
      cursorRowPred q r = (cursorBasePred q r && cursorBound c i r) := by
    intro r _
    simp only [cursorRowPred, hc, hi]
  have hfilter : table.filter (cursorRowPred q) = keysetMatching table q c i := by
    rw [keysetMatching]
    exact List.filter_congr hpred
  have hrows : (cursorHandler table q).rows =
      (sortBy keysetLe (keysetMatching table q c i)).take q.pageSize := by
    simp only [cursorHandler, hfilter]
  refine ⟨hrows, sortBy_perm _ _, sortBy_pairwise keysetLe_total keysetLe_trans _, ?_, rfl, ?_⟩
  · intro r hr
    rw [hrows] at hr
    have hr2 : r ∈ sortBy keysetLe (keysetMatching table q c i) := List.mem_of_mem_take hr
    have hr3 : r ∈ keysetMatching table q c i := (sortBy_perm _ _).mem_iff.mp hr2
    rw [keysetMatching] at hr3
    have hmem := (List.mem_filter.mp hr3).2
    rw [Bool.and_eq_true] at hmem
    rcases hmem with ⟨hbase, hbound⟩
    refine ⟨hbase, ?_⟩
    simpa [cursorBound, decide_eq_true_eq] using hbound
  · simp only [cursorHandler]
    simp [List.getLast?_eq_none_iff]

/-- Witness for the complete-cursor claim at a concrete table and cursor. -/
theorem keyset_complete_cursor_witness :
    cursorCreatedAtVal qCursorFull = some "2026-01-03T00:00:00Z" ∧
    cursorIdVal qCursorFull = some 9 ∧
    keysetPageSpec tblDemo qCursorFull "2026-01-03T00:00:00Z" 9 :=
  ⟨by decide, by decide,
    keyset_complete_cursor tblDemo qCursorFull "2026-01-03T00:00:00Z" 9
      (by decide) (by decide)⟩

/-- C4: a keyset request supplying only one usable cursor half (a truthy
`cursorCreatedAt` with no integer `cursorId`, or a `cursorId` with no truthy
`cursorCreatedAt`) applies no partial bound, raises no error, and returns
exactly the rows of the same request with no cursor at all. -/
theorem keyset_one_sided_cursor (table : List UserRow) (q : CursorQuery)
    (h : (cursorCreatedAtVal q ≠ none ∧ cursorIdVal q = none) ∨
         (cursorCreatedAtVal q = none ∧ q.cursorId ≠ none)) :
    (cursorHandler table q).rows =
      (cursorHandler table { q with cursorCreatedAt := none, cursorId := none }).rows := by
  apply cursorRows_nobound
  rcases h with ⟨_, h2⟩ | ⟨h1, _⟩
  · exact Or.inr h2
  · exact Or.inl h1

/-- Witness for the one-sided-cursor claim: only `cursorCreatedAt` supplied. -/
theorem keyset_one_sided_cursor_witness :
    (cursorCreatedAtVal qCursorOne ≠ none ∧ cursorIdVal qCursorOne = none) ∧
    (cursorHandler tblDemo qCursorOne).rows =
      (cursorHandler tblDemo
        { qCursorOne with cursorCreatedAt := none, cursorId := none }).rows :=
  ⟨⟨by decide, by decide⟩,
    keyset_one_sided_cursor tblDemo qCursorOne (Or.inl ⟨by decide, by decide⟩)⟩

/-- Counterexample to the usedCursor claim as stated: `cursorCreatedAt`
supplied as the empty string is falsy in the handler, so `usedCursor` is
`null` although the parameter was supplied. -/
theorem usedCursor_supplied_empty_counterexample :
    qCursorEmptyStr.cursorCreatedAt ≠ none ∧
    (cursorHandler tblDemo qCursorEmptyStr).usedCursor = none := by
  decide

/-- C10 amended: `usedCursor` is non-null iff `cursorCreatedAt` was supplied
as a non-empty string; with a truthy `cursorCreatedAt` and an unusable
`cursorId`, the response still reports the cursor as used while the row
selection applied no cursor bound. -/
theorem usedCursor_truthiness (table : List UserRow) (q : CursorQuery) :
    ((cursorHandler table q).usedCursor ≠ none ↔
      (∃ s, q.cursorCreatedAt = some s ∧ s ≠ "")) ∧
    (∀ c : String, cursorCreatedAtVal q = some c → cursorIdVal q = none →
      (cursorHandler table q).usedCursor = some (c, none) ∧
      (cursorHandler table q).rows =
        (cursorHandler table { q with cursorCreatedAt := none, cursorId := none }).rows) := by
  constructor
  · cases hq : q.cursorCreatedAt with
    | none =>
      have hval : cursorCreatedAtVal q = none := by
        simp [cursorCreatedAtVal, jsStrOrNull, hq]
      simp [cursorHandler, hval, hq]
    | some s =>
      by_cases hs : s = ""
      · have hval : cursorCreatedAtVal q = none := by
          simp [cursorCreatedAtVal, jsStrOrNull, hq, hs]
        simp [cursorHandler, hval, hq, hs]
      · have hval : cursorCreatedAtVal q = some s := by
          simp [cursorCreatedAtVal, jsStrOrNull, hq, hs]
        simp only [cursorHandler, hval]
        simp [hq]
        exact hs
  · intro c hcv hiv
    constructor
    · simp [cursorHandler, hcv, hiv]
    · exact cursorRows_nobound table q (Or.inr hiv)

/-- Witness for the amended usedCursor claim: truthy `cursorCreatedAt`, a
`cursorId` that does not parse to an integer. -/
theorem usedCursor_truthiness_witness :
    cursorCreatedAtVal qCursorNaN = some "2026-01-02T00:00:00Z" ∧
    cursorIdVal qCursorNaN = none ∧
    (cursorHandler tblDemo qCursorNaN).usedCursor = some ("2026-01-02T00:00:00Z", none) ∧
    (cursorHandler tblDemo qCursorNaN).rows =
      (cursorHandler tblDemo
        { qCursorNaN with cursorCreatedAt := none, cursorId := none }).rows :=
  ⟨by decide, by decide,
    ((usedCursor_truthiness tblDemo qCursorNaN).2 "2026-01-02T00:00:00Z"
        (by decide) (by decide)).1,
    ((usedCursor_truthiness tblDemo qCursorNaN).2 "2026-01-02T00:00:00Z"
        (by decide) (by decide)).2⟩

/-- C1: a response mutates the UI state exactly when its ticket equals the
highest sequence number issued (`reqIdRef.current`, which counts the
dispatches); in the 1,2,3-issued / 3,1,2-arrival scenario only ticket 3's
payload is applied and the other responses are discarded without effect. -/
theorem sequencer_latest_applied :
    (∀ (s : SeqState) (t : Nat) (res : ApiRes),
        (t = s.reqId → seqStep s (.response t res) = appliedState s res) ∧
        (t ≠ s.reqId → seqStep s (.response t res) = s)) ∧
    (∀ evs : List FetchEvent, (seqRun seqInit evs).reqId = countDispatches evs) ∧
    (∀ r1 r2 r3 : ApiRes,
        seqRun seqInit
            [.dispatch, .dispatch, .dispatch,
              .response 3 r3, .response 1 r1, .response 2 r2] =
          appliedState { seqInit with reqId := 3 } r3) := by
  refine ⟨?_, ?_, ?_⟩
  · intro s t res
    constructor
    · intro h
      simp [seqStep, h]
    · intro h
      simp [seqStep, h]
  · intro evs
    rw [seqRun_reqId]
    simp [seqInit]
  · intro r1 r2 r3
    show seqStep (seqStep (seqStep (seqStep (seqStep (seqStep seqInit .dispatch)
        .dispatch) .dispatch) (.response 3 r3)) (.response 1 r1)) (.response 2 r2) = _
    simp [seqStep, seqInit, appliedState]

/-- Witness for the sequencer claim: with three tickets issued, ticket 3's
response is applied and ticket 1's is a no-op. -/
theorem sequencer_latest_applied_witness :
    (3 = seqStateThree.reqId ∧
      seqStep seqStateThree (.response 3 resDemo) = appliedState seqStateThree resDemo) ∧
    (1 ≠ seqStateThree.reqId ∧
      seqStep seqStateThree (.response 1 resDemo) = seqStateThree) :=
  ⟨⟨rfl, (sequencer_latest_applied.1 seqStateThree 3 resDemo).1 rfl⟩,
    ⟨by decide, (sequencer_latest_applied.1 seqStateThree 1 resDemo).2 (by decide)⟩⟩

/-- Counterexample to the failure-surfacing claim as stated: a non-abort
failure of a superseded ticket (1, with 3 issued) is logged to the console —
not swallowed silently — and a non-abort failure of the current ticket (3)
also merely logs and resolves; no failure is rethrown to the caller. -/
theorem fetch_failure_counterexample :
    seqStateThree.reqId = 3 ∧
    fetchSettle seqStateThree 1 (.error "TypeError") =
      (seqStateThree, .completes true) ∧
    fetchSettle seqStateThree 3 (.error "TypeError") =
      (seqStateThree, .completes true) := by
  decide

/-- C2 amended: the catch clause distinguishes only by the error name — an
`AbortError` is swallowed with a silent early return, every other failure is
logged via `console.error` regardless of whether its ticket is current or
superseded, the state is untouched, and `fetchData` always resolves (no
failure is rethrown to its caller). -/
theorem fetch_failure_handling (s : SeqState) (t : Nat) (e : String) :
    (fetchSettle s t (.error e)).1 = s ∧
    (fetchSettle s t (.error e)).2 =
      (if e = "AbortError" then CallerVisible.completes false
        else CallerVisible.completes true) ∧
    (∀ r : Except String ApiRes, ∃ logged : Bool,
        (fetchSettle s t r).2 = CallerVisible.completes logged) := by
  refine ⟨?_, ?_, ?_⟩
  · by_cases h : e = "AbortError" <;> simp [fetchSettle, h]
  · by_cases h : e = "AbortError" <;> simp [fetchSettle, h]
  · intro r
    cases r with
    | ok res => exact ⟨false, rfl⟩
    | error e2 =>
      by_cases h : e2 = "AbortError"
      · exact ⟨false, by simp [fetchSettle, h]⟩
      · exact ⟨true, by simp [fetchSettle, h]⟩
